import Mathlib

set_option autoImplicit false

/-!
Shallow embedding of the student-intro-and-reply Solana program
(`src/error.rs`, `src/instruction.rs`, `src/state.rs`, `src/processor.rs`).

Rust byte strings (`&[u8]`, `String` contents) are modelled as `List Nat`
(each entry intended `< 256`); `String::len` is the byte length, i.e.
`List.length`.  Public keys are byte strings, and `Pubkey::as_ref` is the
identity.  Machine integers (`u64`) are `Nat` with explicit `% 2 ^ 64`.
Handlers return `PResult Chain`: a typed `ProgramError`, a Rust panic
(a failed `.unwrap()`), or the successor chain state.
-/

namespace StudentIntroSol

abbrev Bytes := List Nat

abbrev Pubkey := List Nat

/-- Bytes of the string literal "intro" (discriminator and PDA seed). -/
def introBytes : Bytes := [105, 110, 116, 114, 111]

/-- Bytes of the string literal "reply". -/
def replyBytes : Bytes := [114, 101, 112, 108, 121]

/-- Bytes of the string literal "counter". -/
def counterBytes : Bytes := [99, 111, 117, 110, 116, 101, 114]

/-- Bytes of the literal b"token_mint". -/
def tokenMintBytes : Bytes := [116, 111, 107, 101, 110, 95, 109, 105, 110, 116]

/-- Bytes of the literal b"token_auth". -/
def tokenAuthBytes : Bytes := [116, 111, 107, 101, 110, 95, 97, 117, 116, 104]

def U64MOD : Nat := 18446744073709551616

/-- Translation of `u64::to_be_bytes`: the eight big-endian base-256 digits
(the value is reduced modulo `2 ^ 64` digitwise). -/
def u64_to_be_bytes (n : Nat) : Bytes :=
  [n / 2 ^ 56 % 256, n / 2 ^ 48 % 256, n / 2 ^ 40 % 256, n / 2 ^ 32 % 256,
   n / 2 ^ 24 % 256, n / 2 ^ 16 % 256, n / 2 ^ 8 % 256, n % 256]

/-- Big-endian value of a byte string (used to show `u64_to_be_bytes` is
injective below `2 ^ 64`). -/
def beValue (b : Bytes) : Nat := b.foldl (fun acc d => acc * 256 + d) 0

/-- Modelled from the spec: the Address Deriver of §4.1
(`solana_program::Pubkey::find_program_address`) lives in the excluded
`solana_program` crate.  The spec requires a pure, deterministic,
collision-managed map from an ordered seed list and a namespace (program id)
to an identifier plus a salt.  It is modelled as an injective length-prefixed
encoding of the seed list and program id; the leading tag keeps derived
addresses apart from the other well-known address constants used here.  The
salt (bump seed) is a fixed `255`. -/
def seedBlob (seeds : List Bytes) (program_id : Pubkey) : Bytes :=
  seeds.foldr (fun s acc => s.length :: (s ++ acc)) (1000 :: program_id)

def find_program_address (seeds : List Bytes) (program_id : Pubkey) : Pubkey × Nat :=
  (1001 :: seedBlob seeds program_id, 255)

/-- Modelled from the spec: `spl_associated_token_account::get_associated_token_address`
is part of the excluded token sub-ledger; the spec needs only a pure
deterministic map from (wallet, mint) to the wallet's associated token
account address. -/
def get_associated_token_address (wallet mint : Pubkey) : Pubkey :=
  1002 :: wallet.length :: (wallet ++ mint)

def TOKEN_PROGRAM_ID : Pubkey := [1003]

def SYSTEM_PROGRAM_ID : Pubkey := [1004]

def RENT_PROGRAM_ID : Pubkey := [1005]

def LAMPORTS_PER_SOL : Nat := 1000000000

/-- Number of decimals the reward mint is initialized with
(`initialize_mint(..., 9)`, processor.rs:435). -/
def mint_decimals : Nat := 9

/-- Whole reward units represented by an amount of base units. -/
def reward_units (base : Nat) : Nat := base / 10 ^ mint_decimals

/-- Variants of `solana_program::program_error::ProgramError` reachable in
this program (error.rs / processor.rs / instruction.rs).  `BorshIoError`
stands for `ProgramError::BorshIoError(String)` — the `serialize(...)?` write
failure — with the error text dropped. -/
inductive ProgramError where
  | MissingRequiredSignature
  | InvalidArgument
  | IllegalOwner
  | AccountAlreadyInitialized
  | InvalidInstructionData
  | NotEnoughAccountKeys
  | BorshIoError
  | Custom (code : Nat)
deriving DecidableEq, Repr

/-- The `IntroError` enum of error.rs. -/
inductive IntroError where
  | UninitializedAccount
  | InvalidPDA
  | InvalidDataLength
  | IncorrectAccountError
deriving DecidableEq, Repr

/-- The `From<IntroError> for ProgramError` impl of error.rs:
`ProgramError::Custom(err as u32)` with discriminants in declaration order. -/
def IntroError.toProgramError : IntroError → ProgramError
  | .UninitializedAccount => .Custom 0
  | .InvalidPDA => .Custom 1
  | .InvalidDataLength => .Custom 2
  | .IncorrectAccountError => .Custom 3

/-- The `StudentIntroState` struct of state.rs. -/
structure StudentIntroState where
  discriminator : Bytes
  is_initialized : Bool
  writer : Pubkey
  name : Bytes
  message : Bytes
deriving DecidableEq, Repr

/-- The `StudentReplyState` struct of state.rs. -/
structure StudentReplyState where
  discriminator : Bytes
  is_initialized : Bool
  intro : Pubkey
  replier : Pubkey
  name : Bytes
  message : Bytes
deriving DecidableEq, Repr

/-- The `ReplyCount` struct of state.rs; `counter` is a `u64`, kept below
`2 ^ 64` by every write. -/
structure ReplyCount where
  discriminator : Bytes
  is_initialized : Bool
  counter : Nat
deriving DecidableEq, Repr

def StudentIntroState.DISCRIMINATOR : Bytes := introBytes

def StudentReplyState.DISCRIMINATOR : Bytes := replyBytes

def ReplyCount.DISCRIMINATOR : Bytes := counterBytes

/-- `StudentIntroState::get_account_size` (state.rs:58). -/
def StudentIntroState.get_account_size (name message : Bytes) : Nat :=
  (4 + StudentIntroState.DISCRIMINATOR.length) + 1 + 32
    + (4 + name.length) + (4 + message.length)

/-- `StudentReplyState::get_account_size` (state.rs:69). -/
def StudentReplyState.get_account_size (name message : Bytes) : Nat :=
  (4 + StudentReplyState.DISCRIMINATOR.length) + 1 + 32 + 32
    + (4 + name.length) + (4 + message.length)

/-- `ReplyCount::SIZE` (state.rs:80). -/
def ReplyCount.SIZE : Nat := (4 + ReplyCount.DISCRIMINATOR.length) + 1 + 8

/-- Borsh-serialized byte size of a `StudentIntroState` value as
`BorshSerialize` writes it: the record's own discriminator and name lengths
(not the constant `DISCRIMINATOR` and supplied name that
`get_account_size` measures). -/
def StudentIntroState.serializedSize (s : StudentIntroState) : Nat :=
  (4 + s.discriminator.length) + 1 + 32 + (4 + s.name.length) + (4 + s.message.length)

/-- Typed contents of a storage slot.  A freshly allocated slot holds `size`
zero bytes (`zeroed`); otherwise it holds one of the three record kinds this
program ever serializes. -/
inductive AccountData where
  | zeroed (size : Nat)
  | introData (s : StudentIntroState)
  | replyData (s : StudentReplyState)
  | counterData (c : ReplyCount)
deriving DecidableEq, Repr

/-- One storage slot: its owner, its typed contents, and its allocated byte
length (`AccountInfo::data.len()`), fixed at allocation time — serialization
rewrites contents but never resizes the buffer. -/
structure Account where
  owner : Pubkey
  data : AccountData
  size : Nat
deriving DecidableEq, Repr

/-- Association-list lookup on the account store (later bindings shadow
older ones). -/
def lookupA : List (Pubkey × Account) → Pubkey → Option Account
  | [], _ => none
  | (k, a) :: rest, q => if k = q then some a else lookupA rest q

/-- Association-list lookup on the balance store; an absent token account has
balance 0. -/
def lookupBal : List (Pubkey × Nat) → Pubkey → Nat
  | [], _ => 0
  | (k, b) :: rest, q => if k = q then b else lookupBal rest q

/-- The on-chain world visible to this program: the program-relevant account
store and the reward-token balances (base units) per token account. -/
structure Chain where
  accounts : List (Pubkey × Account)
  balances : List (Pubkey × Nat)
deriving DecidableEq, Repr

def Chain.getAccount (c : Chain) (k : Pubkey) : Option Account :=
  lookupA c.accounts k

def Chain.setAccount (c : Chain) (k : Pubkey) (a : Account) : Chain :=
  { c with accounts := (k, a) :: c.accounts }

/-- Owner of an account as `AccountInfo::owner` reports it; an account absent
from the store is an untouched system-owned account. -/
def Chain.ownerOf (c : Chain) (k : Pubkey) : Pubkey :=
  match c.getAccount k with
  | some a => a.owner
  | none => SYSTEM_PROGRAM_ID

/-- Data of an account as `AccountInfo::data` exposes it; an absent account
has empty data (which no record kind deserializes from). -/
def Chain.dataOf (c : Chain) (k : Pubkey) : AccountData :=
  match c.getAccount k with
  | some a => a.data
  | none => .zeroed 0

/-- Allocated byte length of slot `k`'s data buffer; an absent account has an
empty buffer. -/
def Chain.sizeOf (c : Chain) (k : Pubkey) : Nat :=
  match c.getAccount k with
  | some a => a.size
  | none => 0

def Chain.bal (c : Chain) (k : Pubkey) : Nat := lookupBal c.balances k

/-- Overwrite the data of slot `k`, keeping its owner and buffer length. -/
def Chain.writeData (c : Chain) (k : Pubkey) (d : AccountData) : Chain :=
  c.setAccount k ⟨c.ownerOf k, d, c.sizeOf k⟩

/-- Modelled from the spec: the token sub-ledger's `mint_to` (excluded
collaborator, §1/§4.5) credits the destination token account with the stated
amount of base units. -/
def Chain.mint_to (c : Chain) (ata : Pubkey) (amount : Nat) : Chain :=
  { c with balances := (ata, c.bal ata + amount) :: c.balances }

/-- The caller-facing fields of one `AccountInfo` entry: its address and its
signer flag.  Owner and data are read from the chain by address. -/
structure AccountMeta where
  key : Pubkey
  is_signer : Bool
deriving DecidableEq, Repr

/-- Outcome of running a handler: success, a typed `ProgramError`, or a Rust
panic (an `.unwrap()` of a failed deserialization). -/
inductive PResult (α : Type) where
  | ok (a : α)
  | err (e : ProgramError)
  | panicked
deriving DecidableEq, Repr

def PResult.bind {α β : Type} : PResult α → (α → PResult β) → PResult β
  | .ok a, f => f a
  | .err e, _ => .err e
  | .panicked, _ => .panicked

/-- Modelled from the spec: the system allocator
(`system_instruction::create_account` through `invoke_signed`) belongs to the
excluded storage engine (§1).  Per §4.3/§4.5/§7 it allocates a zero-filled
slot of the requested size at the target address, owned by the requesting
program, and a creation attempt at an existing slot fails with the host's
already-initialized-slot kind (surfaced unchanged, §7, as
`ProgramError.AccountAlreadyInitialized`). -/
def create_account (c : Chain) (new_key : Pubkey) (size : Nat) (owner : Pubkey) :
    PResult Chain :=
  match c.getAccount new_key with
  | some _ => .err .AccountAlreadyInitialized
  | none => .ok (c.setAccount new_key ⟨owner, .zeroed size, size⟩)

/-- Translation of `try_from_slice_unchecked::<StudentIntroState>`: parses a
prefix of the slot's bytes.  Zeroed data of sufficient length (at least the
45 bytes of the record's fixed fields and empty strings) parses as the
all-default record; data serialized as a different record kind, or too short, fails
(`none`), on which the caller's `.unwrap()` panics. -/
def deserializeIntro : AccountData → Option StudentIntroState
  | .zeroed size =>
      if 45 ≤ size then some ⟨[], false, List.replicate 32 0, [], []⟩ else none
  | .introData s => some s
  | _ => none

/-- Translation of `try_from_slice_unchecked::<ReplyCount>` (13 bytes of
zeroed data parse as the default record). -/
def deserializeCounter : AccountData → Option ReplyCount
  | .zeroed size => if 13 ≤ size then some ⟨[], false, 0⟩ else none
  | .counterData c => some c
  | _ => none

/-- Translation of `try_from_slice_unchecked::<StudentReplyState>` (77 bytes
of zeroed data parse as the default record). -/
def deserializeReply : AccountData → Option StudentReplyState
  | .zeroed size =>
      if 77 ≤ size then
        some ⟨[], false, List.replicate 32 0, List.replicate 32 0, [], []⟩
      else none
  | .replyData s => some s
  | _ => none

/-- Translation of `student_intro` (processor.rs:49), branch for branch in
source order.  `accounts` is the caller-supplied positional account list;
account data and owners are read from the chain by address.  Rent amounts are
not modelled (rent belongs to the excluded storage engine and no branch
depends on them). -/
def student_intro (program_id : Pubkey) (c : Chain) (accounts : List AccountMeta)
    (name message : Bytes) : PResult Chain :=
  match accounts with
  | writer :: intro_pda :: counter_pda :: token_mint :: mint_auth :: user_ata ::
      _system_program :: token_program :: _ =>
    if writer.is_signer = false then .err .MissingRequiredSignature
    else
      let pda := (find_program_address [writer.key, introBytes] program_id).1
      if pda ≠ intro_pda.key then .err .InvalidArgument
      else
        let pda_count := (find_program_address [pda, counterBytes] program_id).1
        if pda_count ≠ counter_pda.key then .err .InvalidArgument
        else
          let mint_pda := (find_program_address [tokenMintBytes] program_id).1
          let mint_auth_pda := (find_program_address [tokenAuthBytes] program_id).1
          if mint_pda ≠ token_mint.key then
            .err IntroError.IncorrectAccountError.toProgramError
          else if mint_auth_pda ≠ mint_auth.key then
            .err IntroError.InvalidPDA.toProgramError
          else if user_ata.key ≠ get_associated_token_address writer.key token_mint.key then
            .err IntroError.IncorrectAccountError.toProgramError
          else if token_program.key ≠ TOKEN_PROGRAM_ID then
            .err IntroError.IncorrectAccountError.toProgramError
          else
            let account_len : Nat := 1000
            if StudentIntroState.get_account_size name message > account_len then
              .err IntroError.InvalidDataLength.toProgramError
            else
              match create_account c intro_pda.key account_len program_id with
              | .err e => .err e
              | .panicked => .panicked
              | .ok c1 =>
              match create_account c1 counter_pda.key ReplyCount.SIZE program_id with
              | .err e => .err e
              | .panicked => .panicked
              | .ok c2 =>
              match deserializeIntro (c2.dataOf intro_pda.key),
                    deserializeCounter (c2.dataOf counter_pda.key) with
              | some intro_data, some counter_data =>
                if intro_data.is_initialized then .err .AccountAlreadyInitialized
                else if counter_data.is_initialized then .err .AccountAlreadyInitialized
                else
                  let intro2 : StudentIntroState :=
                    { discriminator := StudentIntroState.DISCRIMINATOR
                      is_initialized := true
                      writer := writer.key
                      name := name
                      message := message }
                  let counter2 : ReplyCount :=
                    { discriminator := ReplyCount.DISCRIMINATOR
                      is_initialized := true
                      counter := 0 }
                  let c3 := ((c2.writeData intro_pda.key (.introData intro2)).writeData
                      counter_pda.key (.counterData counter2))
                  .ok (c3.mint_to user_ata.key (10 * LAMPORTS_PER_SOL))
              | _, _ => .panicked
  | _ => .err .NotEnoughAccountKeys

/-- Translation of `update_intro` (processor.rs:199), branch for branch in
source order.  The final `intro_data.serialize(&mut &mut
pda_intro.data.borrow_mut()[..])?` (processor.rs:241) re-serializes the
record with its stored discriminator and name but the new message into the
slot's fixed-length buffer; the write fails (`BorshIoError`) when that
encoding exceeds the buffer — reachable because the 1000-byte check at
line 235 measures the supplied name, not the stored one. -/
def update_intro (program_id : Pubkey) (c : Chain) (accounts : List AccountMeta)
    (name message : Bytes) : PResult Chain :=
  match accounts with
  | writer :: pda_intro :: _ =>
    if c.ownerOf pda_intro.key ≠ program_id then .err .IllegalOwner
    else if writer.is_signer = false then .err .MissingRequiredSignature
    else
      match deserializeIntro (c.dataOf pda_intro.key) with
      | none => .panicked
      | some intro_data =>
        let pda := (find_program_address [writer.key, introBytes] program_id).1
        if pda ≠ pda_intro.key then .err IntroError.InvalidPDA.toProgramError
        else if intro_data.is_initialized = false then
          .err IntroError.UninitializedAccount.toProgramError
        else if StudentIntroState.get_account_size name message > 1000 then
          .err IntroError.InvalidDataLength.toProgramError
        else
          let new_data : StudentIntroState := { intro_data with message := message }
          if new_data.serializedSize > c.sizeOf pda_intro.key then .err .BorshIoError
          else .ok (c.writeData pda_intro.key (.introData new_data))
  | _ => .err .NotEnoughAccountKeys

/-- Translation of `reply_intro` (processor.rs:246), branch for branch in
source order.  Note, as in the source: the replier's signer flag is never
examined; the supplied introduction and counter addresses are never
re-derived; the allocated size is exactly the encoded payload size with no
capacity check; the counter increments modulo `2 ^ 64` (release-profile
`u64` wrap-around). -/
def reply_intro (program_id : Pubkey) (c : Chain) (accounts : List AccountMeta)
    (name message : Bytes) : PResult Chain :=
  match accounts with
  | replier :: pda_intro :: pda_counter :: pda_reply :: token_mint :: mint_auth ::
      user_ata :: _system_program :: token_program :: _ =>
    let mint_pda := (find_program_address [tokenMintBytes] program_id).1
    let mint_auth_pda := (find_program_address [tokenAuthBytes] program_id).1
    if token_mint.key ≠ mint_pda then
      .err IntroError.IncorrectAccountError.toProgramError
    else if mint_auth.key ≠ mint_auth_pda then
      .err IntroError.IncorrectAccountError.toProgramError
    else if user_ata.key ≠ get_associated_token_address replier.key token_mint.key then
      .err IntroError.IncorrectAccountError.toProgramError
    else if token_program.key ≠ TOKEN_PROGRAM_ID then
      .err IntroError.IncorrectAccountError.toProgramError
    else
      match deserializeCounter (c.dataOf pda_counter.key) with
      | none => .panicked
      | some counter_data =>
        let account_len := StudentReplyState.get_account_size name message
        let pda := (find_program_address
            [pda_intro.key, u64_to_be_bytes counter_data.counter] program_id).1
        if pda ≠ pda_reply.key then .err IntroError.InvalidPDA.toProgramError
        else
          match create_account c pda_reply.key account_len program_id with
          | .err e => .err e
          | .panicked => .panicked
          | .ok c1 =>
          match deserializeReply (c1.dataOf pda_reply.key) with
          | none => .panicked
          | some reply_data =>
            if reply_data.is_initialized then .err .AccountAlreadyInitialized
            else
              let reply2 : StudentReplyState :=
                { discriminator := StudentReplyState.DISCRIMINATOR
                  is_initialized := true
                  intro := pda_intro.key
                  replier := replier.key
                  name := name
                  message := message }
              let counter2 : ReplyCount :=
                { counter_data with counter := (counter_data.counter + 1) % U64MOD }
              let c2 := ((c1.writeData pda_reply.key (.replyData reply2)).writeData
                  pda_counter.key (.counterData counter2))
              .ok (c2.mint_to user_ata.key (5 * LAMPORTS_PER_SOL))
  | _ => .err .NotEnoughAccountKeys

/-- The `StudentInstruction` enum of instruction.rs. -/
inductive StudentInstruction where
  | StudentIntro (name message : Bytes)
  | UpdateIntro (name message : Bytes)
  | ReplyIntro (name message : Bytes)
deriving DecidableEq, Repr

/-- Borsh little-endian `u32` read: the first four bytes. -/
def readU32LE : Bytes → Option (Nat × Bytes)
  | b0 :: b1 :: b2 :: b3 :: rest =>
      some (b0 + b1 * 256 + b2 * 65536 + b3 * 16777216, rest)
  | _ => none

/-- Borsh `String`: a `u32` length followed by that many bytes (names and
messages are byte strings throughout, so UTF-8 validity is not modelled). -/
def readString (b : Bytes) : Option (Bytes × Bytes) :=
  match readU32LE b with
  | none => none
  | some (n, rest) =>
      if n ≤ rest.length then some (rest.take n, rest.drop n) else none

/-- `StudentIntroPayload::try_from_slice`: two consecutive borsh strings
consuming the whole input (borsh's `try_from_slice` rejects trailing
bytes). -/
def payloadFromSlice (b : Bytes) : Option (Bytes × Bytes) :=
  match readString b with
  | none => none
  | some (name, rest) =>
    match readString rest with
    | none => none
    | some (message, rest2) => if rest2 = [] then some (name, message) else none

/-- Translation of `StudentInstruction::unpack` (instruction.rs:17).  As in
the source, the payload is `.unwrap()`ed before the opcode byte is examined,
so a remainder that does not decode panics even under an unrecognized
opcode. -/
def unpack (input : Bytes) : PResult StudentInstruction :=
  match input with
  | [] => .err .InvalidInstructionData
  | variant :: rest =>
    match payloadFromSlice rest with
    | none => .panicked
    | some (name, message) =>
      if variant = 0 then .ok (.StudentIntro name message)
      else if variant = 1 then .ok (.UpdateIntro name message)
      else if variant = 2 then .ok (.ReplyIntro name message)
      else .err .InvalidInstructionData

/-- Translation of `process_instruction` (processor.rs:25).  The
`InitializeMint` arm of the source names a variant that instruction.rs does
not define; the three decodable operations dispatch as in the source. -/
def process_instruction (program_id : Pubkey) (c : Chain)
    (accounts : List AccountMeta) (instruction_data : Bytes) : PResult Chain :=
  match unpack instruction_data with
  | .panicked => .panicked
  | .err e => .err e
  | .ok (.StudentIntro name message) => student_intro program_id c accounts name message
  | .ok (.UpdateIntro name message) => update_intro program_id c accounts name message
  | .ok (.ReplyIntro name message) => reply_intro program_id c accounts name message

/-- Derived address of the introduction slot of writer `w` under program
`pid` (seeds `[w, "intro"]`, processor.rs:71). -/
def introAddr (pid w : Bytes) : Pubkey :=
  (find_program_address [w, introBytes] pid).1

/-- Derived address of the reply-counter slot (seeds `[introAddr, "counter"]`,
processor.rs:79). -/
def counterAddr (pid w : Bytes) : Pubkey :=
  (find_program_address [introAddr pid w, counterBytes] pid).1

/-- Derived address of the reward-mint singleton (seeds `[b"token_mint"]`). -/
def mintAddr (pid : Bytes) : Pubkey :=
  (find_program_address [tokenMintBytes] pid).1

/-- Derived address of the mint-authority singleton (seeds `[b"token_auth"]`). -/
def authAddr (pid : Bytes) : Pubkey :=
  (find_program_address [tokenAuthBytes] pid).1

/-- Associated reward-token account of identity `u`. -/
def ataOf (pid u : Bytes) : Pubkey := get_associated_token_address u (mintAddr pid)

/-- Derived address of the reply record with sequence number `n` (seeds
`[introAddr, n.to_be_bytes()]`, processor.rs:296). -/
def replyAddr (pid w : Bytes) (n : Nat) : Pubkey :=
  (find_program_address [introAddr pid w, u64_to_be_bytes n] pid).1

/-- The positional account list a well-formed create-introduction supplies
(processor.rs:57, §6 of the spec). -/
def createAccounts (pid w : Bytes) : List AccountMeta :=
  [⟨w, true⟩, ⟨introAddr pid w, false⟩, ⟨counterAddr pid w, false⟩,
   ⟨mintAddr pid, false⟩, ⟨authAddr pid, false⟩, ⟨ataOf pid w, false⟩,
   ⟨SYSTEM_PROGRAM_ID, false⟩, ⟨TOKEN_PROGRAM_ID, false⟩]

/-- The positional account list a well-formed reply supplies, targeting
sequence number `n` (processor.rs:255). -/
def replyAccounts (pid w r : Bytes) (n : Nat) : List AccountMeta :=
  [⟨r, true⟩, ⟨introAddr pid w, false⟩, ⟨counterAddr pid w, false⟩,
   ⟨replyAddr pid w n, false⟩, ⟨mintAddr pid, false⟩, ⟨authAddr pid, false⟩,
   ⟨ataOf pid r, false⟩, ⟨SYSTEM_PROGRAM_ID, false⟩, ⟨TOKEN_PROGRAM_ID, false⟩]

/-- Counter value currently stored in slot `k` (0 when the slot does not
parse; used by the canonical caller to aim its next reply). -/
def counterValueAt (c : Chain) (k : Pubkey) : Nat :=
  match deserializeCounter (c.dataOf k) with
  | some cd => cd.counter
  | none => 0

/-- One canonical reply by `r` to `w`'s introduction: the caller reads the
on-chain counter and supplies the matching derived reply address, as §4.4 of
the spec describes. -/
def replyStep (pid w r name message : Bytes) (c : Chain) : PResult Chain :=
  reply_intro pid c
    (replyAccounts pid w r (counterValueAt c (counterAddr pid w))) name message

/-- The chain after `w` creates an introduction on an empty chain and `r`
then posts `k` canonical replies. -/
def chainAfter (pid w r nameA msgA nameB msgB : Bytes) : Nat → PResult Chain
  | 0 => student_intro pid ⟨[], []⟩ (createAccounts pid w) nameA msgA
  | k + 1 =>
      PResult.bind (chainAfter pid w r nameA msgA nameB msgB k)
        (replyStep pid w r nameB msgB)

/-- The reply record every canonical reply stores (processor.rs:334). -/
def replyRecord (pid w r nameB msgB : Bytes) : StudentReplyState :=
  ⟨replyBytes, true, introAddr pid w, r, nameB, msgB⟩

/-- Invariant of the canonical chain after `k` replies: the counter slot
holds `k % 2 ^ 64`, sequence numbers below `k` are filled with reply records,
and the remaining reply addresses are unallocated. -/
structure ChainInv (pid w r nameB msgB : Bytes) (k : Nat) (c : Chain) : Prop where
  counterOk : c.getAccount (counterAddr pid w) =
    some ⟨pid, .counterData ⟨counterBytes, true, k % U64MOD⟩, ReplyCount.SIZE⟩
  replyOld : ∀ j, j < U64MOD → j < k →
    c.getAccount (replyAddr pid w j) =
      some ⟨pid, .replyData (replyRecord pid w r nameB msgB),
        StudentReplyState.get_account_size nameB msgB⟩
  replyFresh : ∀ j, j < U64MOD → k ≤ j → c.getAccount (replyAddr pid w j) = none

/-- Boolean success test on a handler outcome. -/
def isOk {α : Type} : PResult α → Bool
  | .ok _ => true
  | _ => false

/-- The positional account list a well-formed update supplies
(processor.rs:207). -/
def updateAccounts (pid w : Bytes) : List AccountMeta :=
  [⟨w, true⟩, ⟨introAddr pid w, false⟩]

/-- The canonical create account list with the writer's signer flag cleared. -/
def nosigCreateAccounts (pid w : Bytes) : List AccountMeta :=
  [⟨w, false⟩, ⟨introAddr pid w, false⟩, ⟨counterAddr pid w, false⟩,
   ⟨mintAddr pid, false⟩, ⟨authAddr pid, false⟩, ⟨ataOf pid w, false⟩,
   ⟨SYSTEM_PROGRAM_ID, false⟩, ⟨TOKEN_PROGRAM_ID, false⟩]

/-- The canonical update account list with the writer's signer flag cleared. -/
def nosigUpdateAccounts (pid w : Bytes) : List AccountMeta :=
  [⟨w, false⟩, ⟨introAddr pid w, false⟩]

/-- The canonical reply account list with the replier's signer flag cleared. -/
def nosigReplyAccounts (pid w r : Bytes) (n : Nat) : List AccountMeta :=
  [⟨r, false⟩, ⟨introAddr pid w, false⟩, ⟨counterAddr pid w, false⟩,
   ⟨replyAddr pid w n, false⟩, ⟨mintAddr pid, false⟩, ⟨authAddr pid, false⟩,
   ⟨ataOf pid r, false⟩, ⟨SYSTEM_PROGRAM_ID, false⟩, ⟨TOKEN_PROGRAM_ID, false⟩]

/-- A chain holding only a counter record at the arbitrary, underived
address `[55]`, owned by program `[7]`. -/
def rogueChain : Chain :=
  ⟨[([55], ⟨[7], .counterData ⟨counterBytes, true, 0⟩, 20⟩)], []⟩

/-- A reply account list whose introduction reference `[66]` and counter
reference `[55]` are not derived from the defined seed lists, while the reply
reference does match `derive([66], be(0))`. -/
def rogueReplyAccounts : List AccountMeta :=
  [⟨[2], true⟩, ⟨[66], false⟩, ⟨[55], false⟩,
   ⟨(find_program_address [[66], u64_to_be_bytes 0] [7]).1, false⟩,
   ⟨mintAddr [7], false⟩, ⟨authAddr [7], false⟩, ⟨ataOf [7] [2], false⟩,
   ⟨SYSTEM_PROGRAM_ID, false⟩, ⟨TOKEN_PROGRAM_ID, false⟩]

/-- A sample stored introduction record of writer `[1]`. -/
def sampleIntroRecord : StudentIntroState := ⟨introBytes, true, [1], [65], [66]⟩

/-- A chain holding writer `[1]`'s introduction record at the arbitrary,
underived address `[9]`, owned by program `[7]`. -/
def wrongSlotChain : Chain :=
  ⟨[([9], ⟨[7], .introData sampleIntroRecord, 1000⟩)], []⟩

/-- A chain holding writer `[1]`'s introduction record at its derived
address under program `[7]`. -/
def goodIntroChain : Chain :=
  ⟨[(introAddr [7] [1], ⟨[7], .introData sampleIntroRecord, 1000⟩)], []⟩

/-- Counter value stored at `key` in the chain a handler outcome carries
(`none` when the outcome is not a success or the slot does not parse). -/
def counterOfResult (res : PResult Chain) (key : Pubkey) : Option Nat :=
  match res with
  | .ok c =>
    match deserializeCounter (c.dataOf key) with
    | some cd => some cd.counter
    | none => none
  | _ => none

/-- Reward-token balance of `q` in the chain a handler outcome carries
(`none` when the outcome is not a success). -/
def balOfResult (res : PResult Chain) (q : Pubkey) : Option Nat :=
  match res with
  | .ok c => some (c.bal q)
  | _ => none

theorem getAccount_set_same (c : Chain) (k : Pubkey) (a : Account) :
    (c.setAccount k a).getAccount k = some a := by
  simp [Chain.getAccount, Chain.setAccount, lookupA]

theorem getAccount_set_ne (c : Chain) (k q : Pubkey) (a : Account) (h : k ≠ q) :
    (c.setAccount k a).getAccount q = c.getAccount q := by
  simp [Chain.getAccount, Chain.setAccount, lookupA, h]

theorem dataOf_set_same (c : Chain) (k : Pubkey) (a : Account) :
    (c.setAccount k a).dataOf k = a.data := by
  simp [Chain.dataOf, getAccount_set_same]

theorem ownerOf_set_same (c : Chain) (k : Pubkey) (a : Account) :
    (c.setAccount k a).ownerOf k = a.owner := by
  simp [Chain.ownerOf, getAccount_set_same]

theorem u64_to_be_bytes_length (n : Nat) : (u64_to_be_bytes n).length = 8 := rfl

theorem beValue_u64 (n : Nat) : beValue (u64_to_be_bytes n) = n % U64MOD := by
  simp only [beValue, u64_to_be_bytes, List.foldl, U64MOD]
  omega

theorem u64_to_be_bytes_inj (m n : Nat) (hm : m < U64MOD) (hn : n < U64MOD)
    (h : u64_to_be_bytes m = u64_to_be_bytes n) : m = n := by
  have h2 := congrArg beValue h
  rw [beValue_u64, beValue_u64, Nat.mod_eq_of_lt hm, Nat.mod_eq_of_lt hn] at h2
  exact h2

theorem fpa1_length (s : Bytes) (pid : Pubkey) :
    ((find_program_address [s] pid).1).length = 3 + s.length + pid.length := by
  simp [find_program_address, seedBlob]
  omega

theorem fpa2_length (a x : Bytes) (pid : Pubkey) :
    ((find_program_address [a, x] pid).1).length
      = 4 + a.length + x.length + pid.length := by
  simp [find_program_address, seedBlob]
  omega

theorem fpa2_snd_inj (a x y : Bytes) (pid : Pubkey)
    (h : (find_program_address [a, x] pid).1 = (find_program_address [a, y] pid).1) :
    x = y := by
  simp only [find_program_address, seedBlob, List.foldr, List.cons.injEq, true_and] at h
  have h2 := List.append_cancel_left h
  simp only [List.cons.injEq] at h2
  exact (List.append_inj h2.2 h2.1).1

theorem introAddr_length (pid w : Bytes) :
    (introAddr pid w).length = 9 + w.length + pid.length := by
  simp [introAddr, fpa2_length, introBytes]
  omega

theorem counterAddr_length (pid w : Bytes) :
    (counterAddr pid w).length = 20 + w.length + 2 * pid.length := by
  simp [counterAddr, fpa2_length, counterBytes, introAddr_length]
  omega

theorem replyAddr_length (pid w : Bytes) (n : Nat) :
    (replyAddr pid w n).length = 21 + w.length + 2 * pid.length := by
  simp [replyAddr, fpa2_length, u64_to_be_bytes_length, introAddr_length]
  omega

theorem counterAddr_ne_introAddr (pid w : Bytes) :
    counterAddr pid w ≠ introAddr pid w := by
  intro h
  have h2 := congrArg List.length h
  rw [counterAddr_length, introAddr_length] at h2
  omega

theorem replyAddr_ne_introAddr (pid w : Bytes) (n : Nat) :
    replyAddr pid w n ≠ introAddr pid w := by
  intro h
  have h2 := congrArg List.length h
  rw [replyAddr_length, introAddr_length] at h2
  omega

theorem replyAddr_ne_counterAddr (pid w : Bytes) (n : Nat) :
    replyAddr pid w n ≠ counterAddr pid w := by
  intro h
  have h2 := congrArg List.length h
  rw [replyAddr_length, counterAddr_length] at h2
  omega

theorem replyAddr_inj (pid w : Bytes) (m n : Nat) (hm : m < U64MOD) (hn : n < U64MOD)
    (h : replyAddr pid w m = replyAddr pid w n) : m = n := by
  exact u64_to_be_bytes_inj m n hm hn (fpa2_snd_inj _ _ _ _ h)

theorem getAccount_mint_to (c : Chain) (a q : Pubkey) (amt : Nat) :
    (c.mint_to a amt).getAccount q = c.getAccount q := rfl

theorem bal_mint_to_same (c : Chain) (a : Pubkey) (amt : Nat) :
    (c.mint_to a amt).bal a = c.bal a + amt := by
  simp [Chain.mint_to, Chain.bal, lookupBal]

theorem bal_mint_to_ne (c : Chain) (a q : Pubkey) (amt : Nat) (h : a ≠ q) :
    (c.mint_to a amt).bal q = c.bal q := by
  simp [Chain.mint_to, Chain.bal, lookupBal, h]

theorem bal_set_account (c : Chain) (k q : Pubkey) (a : Account) :
    (c.setAccount k a).bal q = c.bal q := rfl

theorem replyCount_SIZE_eq : ReplyCount.SIZE = 20 := rfl

theorem introAddr_def (pid w : Bytes) :
    (find_program_address [w, introBytes] pid).1 = introAddr pid w := rfl

theorem counterAddr_def (pid w : Bytes) :
    (find_program_address [introAddr pid w, counterBytes] pid).1 = counterAddr pid w := rfl

theorem mintAddr_def (pid : Bytes) :
    (find_program_address [tokenMintBytes] pid).1 = mintAddr pid := rfl

theorem authAddr_def (pid : Bytes) :
    (find_program_address [tokenAuthBytes] pid).1 = authAddr pid := rfl

theorem ataOf_def (pid u : Bytes) :
    get_associated_token_address u (mintAddr pid) = ataOf pid u := rfl

theorem replyAddr_def (pid w : Bytes) (n : Nat) :
    (find_program_address [introAddr pid w, u64_to_be_bytes n] pid).1
      = replyAddr pid w n := rfl

theorem student_intro_canonical_ok (pid w nameA msgA : Bytes) (c : Chain)
    (hsize : StudentIntroState.get_account_size nameA msgA ≤ 1000)
    (hfresh1 : c.getAccount (introAddr pid w) = none)
    (hfresh2 : c.getAccount (counterAddr pid w) = none) :
    ∃ c0, student_intro pid c (createAccounts pid w) nameA msgA = .ok c0 ∧
      c0.getAccount (introAddr pid w) =
        some ⟨pid, .introData ⟨introBytes, true, w, nameA, msgA⟩, 1000⟩ ∧
      c0.getAccount (counterAddr pid w) =
        some ⟨pid, .counterData ⟨counterBytes, true, 0⟩, ReplyCount.SIZE⟩ ∧
      (∀ q, q ≠ introAddr pid w → q ≠ counterAddr pid w →
        c0.getAccount q = c.getAccount q) ∧
      c0.bal (ataOf pid w) = c.bal (ataOf pid w) + 10 * LAMPORTS_PER_SOL ∧
      (∀ q, q ≠ ataOf pid w → c0.bal q = c.bal q) := by
  have hci : counterAddr pid w ≠ introAddr pid w := counterAddr_ne_introAddr pid w
  have hgt : ¬ (StudentIntroState.get_account_size nameA msgA > 1000) := by omega
  have heq : student_intro pid c (createAccounts pid w) nameA msgA =
      .ok ⟨(counterAddr pid w,
              ⟨pid, .counterData ⟨counterBytes, true, 0⟩, ReplyCount.SIZE⟩) ::
           (introAddr pid w,
              ⟨pid, .introData ⟨introBytes, true, w, nameA, msgA⟩, 1000⟩) ::
           (counterAddr pid w, ⟨pid, .zeroed ReplyCount.SIZE, ReplyCount.SIZE⟩) ::
           (introAddr pid w, ⟨pid, .zeroed 1000, 1000⟩) :: c.accounts,
           (ataOf pid w, c.bal (ataOf pid w) + 10 * LAMPORTS_PER_SOL) :: c.balances⟩ := by
    simp only [Chain.getAccount] at hfresh1 hfresh2
    simp [student_intro, createAccounts, create_account, introAddr_def, counterAddr_def,
      mintAddr_def, authAddr_def, ataOf_def, hgt, PResult.bind, Chain.dataOf,
      Chain.getAccount, Chain.setAccount, Chain.writeData, Chain.ownerOf, Chain.sizeOf,
      Chain.mint_to,
      lookupA, hfresh1, hfresh2, hci, Ne.symm hci, deserializeIntro, deserializeCounter,
      StudentIntroState.DISCRIMINATOR, ReplyCount.DISCRIMINATOR, replyCount_SIZE_eq,
      Chain.bal, lookupBal]
  refine ⟨_, heq, ?_, ?_, ?_, ?_, ?_⟩
  · simp [Chain.getAccount, lookupA, hci]
  · simp [Chain.getAccount, lookupA]
  · intro q h1 h2
    simp [Chain.getAccount, lookupA, Ne.symm h1, Ne.symm h2]
  · simp [Chain.bal, lookupBal]
  · intro q h
    simp [Chain.bal, lookupBal, Ne.symm h]

theorem chainAfter_zero_inv (pid w r nameA msgA nameB msgB : Bytes)
    (hsize : StudentIntroState.get_account_size nameA msgA ≤ 1000) :
    ∃ c0, chainAfter pid w r nameA msgA nameB msgB 0 = .ok c0 ∧
      ChainInv pid w r nameB msgB 0 c0 := by
  obtain ⟨c0, heq, hI, hK, hother, hbal, hbal2⟩ :=
    student_intro_canonical_ok pid w nameA msgA ⟨[], []⟩ hsize rfl rfl
  refine ⟨c0, heq, ?_, ?_, ?_⟩
  · simpa using hK
  · intro j _ hj
    omega
  · intro j hj _
    rw [hother (replyAddr pid w j) (replyAddr_ne_introAddr pid w j)
      (replyAddr_ne_counterAddr pid w j)]
    rfl

theorem reply_size_ge (nameB msgB : Bytes) :
    77 ≤ StudentReplyState.get_account_size nameB msgB := by
  simp [StudentReplyState.get_account_size, StudentReplyState.DISCRIMINATOR, replyBytes]
  omega

theorem replyStep_ok (pid w r nameB msgB : Bytes) (k : Nat) (c : Chain)
    (hk : k < U64MOD) (inv : ChainInv pid w r nameB msgB k c) :
    ∃ c2, replyStep pid w r nameB msgB c = .ok c2 ∧
      ChainInv pid w r nameB msgB (k + 1) c2 := by
  have hkk : k % U64MOD = k := Nat.mod_eq_of_lt hk
  have hcv : counterValueAt c (counterAddr pid w) = k := by
    simp [counterValueAt, Chain.dataOf, inv.counterOk, deserializeCounter, hkk]
  have hfr : c.getAccount (replyAddr pid w k) = none := inv.replyFresh k hk le_rfl
  have hrc : replyAddr pid w k ≠ counterAddr pid w := replyAddr_ne_counterAddr pid w k
  have h77 := reply_size_ge nameB msgB
  have heq : replyStep pid w r nameB msgB c =
      .ok ⟨(counterAddr pid w,
              ⟨pid, .counterData ⟨counterBytes, true, (k + 1) % U64MOD⟩,
                ReplyCount.SIZE⟩) ::
           (replyAddr pid w k,
              ⟨pid, .replyData (replyRecord pid w r nameB msgB),
                StudentReplyState.get_account_size nameB msgB⟩) ::
           (replyAddr pid w k,
              ⟨pid, .zeroed (StudentReplyState.get_account_size nameB msgB),
                StudentReplyState.get_account_size nameB msgB⟩) ::
           c.accounts,
           (ataOf pid r, c.bal (ataOf pid r) + 5 * LAMPORTS_PER_SOL) :: c.balances⟩ := by
    simp only [Chain.getAccount] at hfr
    have hK := inv.counterOk
    simp only [Chain.getAccount] at hK
    simp [replyStep, replyAccounts, reply_intro, create_account, hcv, introAddr_def,
      counterAddr_def, mintAddr_def, authAddr_def, ataOf_def, replyAddr_def,
      PResult.bind, Chain.dataOf, Chain.getAccount, Chain.setAccount, Chain.writeData,
      Chain.ownerOf, Chain.sizeOf, Chain.mint_to, Chain.bal, lookupA, lookupBal, hK, hfr, hrc,
      Ne.symm hrc, deserializeCounter, deserializeReply, h77, hkk,
      Nat.mod_add_mod, replyRecord, StudentReplyState.DISCRIMINATOR]
  refine ⟨_, heq, ?_, ?_, ?_⟩
  · simp [Chain.getAccount, lookupA]
  · intro j hjM hj
    rcases Nat.lt_succ_iff_lt_or_eq.mp hj with hjk | hjk
    · have hne : replyAddr pid w j ≠ replyAddr pid w k := by
        intro hcontra
        exact absurd (replyAddr_inj pid w j k hjM hk hcontra) (Nat.ne_of_lt hjk)
      have := inv.replyOld j hjM hjk
      simp only [Chain.getAccount] at this ⊢
      simp [lookupA, Ne.symm (replyAddr_ne_counterAddr pid w j), hne, Ne.symm hne, this]
    · subst hjk
      simp [Chain.getAccount, lookupA, Ne.symm hrc]
  · intro j hjM hj
    have hne : replyAddr pid w j ≠ replyAddr pid w k := by
      intro hcontra
      have := replyAddr_inj pid w j k hjM hk hcontra
      omega
    have := inv.replyFresh j hjM (by omega)
    simp only [Chain.getAccount] at this ⊢
    simp [lookupA, Ne.symm (replyAddr_ne_counterAddr pid w j), hne, Ne.symm hne, this]

theorem chainAfter_inv (pid w r nameA msgA nameB msgB : Bytes)
    (hsize : StudentIntroState.get_account_size nameA msgA ≤ 1000) :
    ∀ k, k ≤ U64MOD →
      ∃ ck, chainAfter pid w r nameA msgA nameB msgB k = .ok ck ∧
        ChainInv pid w r nameB msgB k ck := by
  intro k
  induction k with
  | zero =>
    intro _
    exact chainAfter_zero_inv pid w r nameA msgA nameB msgB hsize
  | succ n ih =>
    intro hn
    obtain ⟨cn, heq, inv⟩ := ih (by omega)
    obtain ⟨c2, heq2, inv2⟩ := replyStep_ok pid w r nameB msgB n cn (by omega) inv
    exact ⟨c2, by simp [chainAfter, heq, PResult.bind, heq2], inv2⟩

theorem update_intro_ok_shape (pid : Bytes) (c : Chain) (writer pintro : AccountMeta)
    (rest : List AccountMeta) (name message : Bytes) (c' : Chain)
    (h : update_intro pid c (writer :: pintro :: rest) name message = .ok c') :
    ∃ old, deserializeIntro (c.dataOf pintro.key) = some old ∧
      pintro.key = introAddr pid writer.key ∧
      old.is_initialized = true ∧
      StudentIntroState.get_account_size name message ≤ 1000 ∧
      StudentIntroState.serializedSize { old with message := message }
        ≤ c.sizeOf pintro.key ∧
      c' = c.writeData pintro.key (.introData { old with message := message }) := by
  simp only [update_intro] at h
  split at h
  · simp at h
  · rename_i hown
    split at h
    · simp at h
    · rename_i hsig
      split at h
      · simp at h
      · rename_i old hold
        split at h
        · simp at h
        · rename_i hpda
          split at h
          · simp at h
          · rename_i hinit
            split at h
            · simp at h
            · rename_i hsize
              split at h
              · simp at h
              · rename_i hfit
                have hkey : pintro.key = introAddr pid writer.key := by
                  have h2 := not_ne_iff.mp hpda
                  rw [introAddr_def] at h2
                  exact h2.symm
                refine ⟨old, hold, hkey, by simpa using hinit, Nat.not_lt.mp hsize,
                  Nat.not_lt.mp hfit, ?_⟩
                simpa using h.symm

set_option maxHeartbeats 1000000 in
theorem student_intro_ok_shape (pid : Bytes) (c : Chain)
    (writer ip cp tm ma ua sp tp : AccountMeta) (rest : List AccountMeta)
    (name message : Bytes) (c' : Chain)
    (h : student_intro pid c (writer :: ip :: cp :: tm :: ma :: ua :: sp :: tp :: rest)
      name message = .ok c') :
    writer.is_signer = true ∧
    ip.key = introAddr pid writer.key ∧
    cp.key = counterAddr pid writer.key ∧
    tm.key = mintAddr pid ∧
    ua.key = ataOf pid writer.key ∧
    StudentIntroState.get_account_size name message ≤ 1000 ∧
    c.getAccount ip.key = none ∧
    c' = ((((c.setAccount ip.key ⟨pid, .zeroed 1000, 1000⟩).setAccount cp.key
        ⟨pid, .zeroed ReplyCount.SIZE, ReplyCount.SIZE⟩).writeData ip.key
        (.introData ⟨introBytes, true, writer.key, name, message⟩)).writeData cp.key
        (.counterData ⟨counterBytes, true, 0⟩)).mint_to ua.key (10 * LAMPORTS_PER_SOL) := by
  simp only [student_intro] at h
  split at h
  · simp at h
  rename_i hsig
  split at h
  · simp at h
  rename_i hip
  split at h
  · simp at h
  rename_i hcp
  split at h
  · simp at h
  rename_i htm
  split at h
  · simp at h
  rename_i hma
  split at h
  · simp at h
  rename_i hua
  split at h
  · simp at h
  rename_i htp
  split at h
  · simp at h
  rename_i hsize
  split at h
  · simp at h
  · simp at h
  rename_i c1 heq1
  simp only [create_account] at heq1
  split at heq1
  · simp at heq1
  rename_i hfresh1
  simp only [PResult.ok.injEq] at heq1
  subst heq1
  split at h
  · simp at h
  · simp at h
  rename_i c2 heq2
  simp only [create_account] at heq2
  split at heq2
  · simp at heq2
  rename_i hfresh2
  simp only [PResult.ok.injEq] at heq2
  subst heq2
  split at h
  · rename_i intro_data counter_data hid hcd
    split at h
    · simp at h
    split at h
    · simp at h
    have htmk : tm.key = mintAddr pid := by
      have h2 := not_ne_iff.mp htm
      rw [mintAddr_def] at h2
      exact h2.symm
    have hipk : ip.key = introAddr pid writer.key := by
      have h2 := not_ne_iff.mp hip
      rw [introAddr_def] at h2
      exact h2.symm
    have hcpk : cp.key = counterAddr pid writer.key := by
      have h2 := not_ne_iff.mp hcp
      rw [introAddr_def, counterAddr_def] at h2
      exact h2.symm
    have huak : ua.key = ataOf pid writer.key := by
      have h2 := not_ne_iff.mp hua
      rw [htmk, ataOf_def] at h2
      exact h2
    refine ⟨by simpa using hsig, hipk, hcpk, htmk, huak,
      Nat.not_lt.mp hsize, hfresh1, ?_⟩
    simpa [StudentIntroState.DISCRIMINATOR, ReplyCount.DISCRIMINATOR] using h.symm
  · simp at h

theorem reply_intro_ok_shape (pid : Bytes) (c : Chain)
    (replier ip cp pr tm ma ua sp tp : AccountMeta) (rest : List AccountMeta)
    (name message : Bytes) (c' : Chain)
    (h : reply_intro pid c (replier :: ip :: cp :: pr :: tm :: ma :: ua :: sp :: tp :: rest)
      name message = .ok c') :
    ∃ cd, deserializeCounter (c.dataOf cp.key) = some cd ∧
      tm.key = mintAddr pid ∧
      ua.key = ataOf pid replier.key ∧
      pr.key = (find_program_address [ip.key, u64_to_be_bytes cd.counter] pid).1 ∧
      c.getAccount pr.key = none ∧
      c' = (((c.setAccount pr.key
          ⟨pid, .zeroed (StudentReplyState.get_account_size name message),
            StudentReplyState.get_account_size name message⟩).writeData pr.key
          (.replyData ⟨replyBytes, true, ip.key, replier.key, name, message⟩)).writeData cp.key
          (.counterData { cd with counter := (cd.counter + 1) % U64MOD })).mint_to ua.key
          (5 * LAMPORTS_PER_SOL) := by
  simp only [reply_intro] at h
  split at h
  · simp at h
  rename_i htm
  split at h
  · simp at h
  rename_i hma
  split at h
  · simp at h
  rename_i hua
  split at h
  · simp at h
  rename_i htp
  split at h
  · simp at h
  rename_i cd hcd
  split at h
  · simp at h
  rename_i hpr
  split at h
  · simp at h
  · simp at h
  rename_i c1 heq1
  simp only [create_account] at heq1
  split at heq1
  · simp at heq1
  rename_i hfresh
  simp only [PResult.ok.injEq] at heq1
  subst heq1
  split at h
  · simp at h
  rename_i reply_data hrd
  split at h
  · simp at h
  have htmk : tm.key = mintAddr pid := by
    have h2 := not_ne_iff.mp htm
    rw [mintAddr_def] at h2
    exact h2
  have huak : ua.key = ataOf pid replier.key := by
    have h2 := not_ne_iff.mp hua
    rw [htmk, ataOf_def] at h2
    exact h2
  have hprk :
      pr.key = (find_program_address [ip.key, u64_to_be_bytes cd.counter] pid).1 := by
    exact (not_ne_iff.mp hpr).symm
  refine ⟨cd, hcd, htmk, huak, hprk, hfresh, ?_⟩
  simpa [StudentReplyState.DISCRIMINATOR] using h.symm

/-- C5: for every identity, submitting create-introduction twice for the same
identity succeeds the first time and fails the second time with the error
kind AccountAlreadyInitialized: the second creation attempt targets the same
derived introduction slot, which is already initialized, and is rejected with
that specific kind.  (The allocation step is the spec-modelled system
allocator; both the allocator's already-initialized-slot rejection, §4.5/§7,
and the handler's own flag check, processor.rs:157, carry this kind.) -/
theorem c5_create_twice (pid w n1 m1 n2 m2 : Bytes)
    (h1 : StudentIntroState.get_account_size n1 m1 ≤ 1000)
    (h2 : StudentIntroState.get_account_size n2 m2 ≤ 1000) :
    ∃ c0, student_intro pid ⟨[], []⟩ (createAccounts pid w) n1 m1 = .ok c0 ∧
      student_intro pid c0 (createAccounts pid w) n2 m2
        = .err .AccountAlreadyInitialized := by
  obtain ⟨c0, heq, hI, hK, _, _, _⟩ :=
    student_intro_canonical_ok pid w n1 m1 ⟨[], []⟩ h1 rfl rfl
  refine ⟨c0, heq, ?_⟩
  have hgt2 : ¬ (StudentIntroState.get_account_size n2 m2 > 1000) := by omega
  simp [student_intro, createAccounts, create_account, introAddr_def, counterAddr_def,
    mintAddr_def, authAddr_def, ataOf_def, hgt2, hI]

/-- C5 witness: writer `[1]` under program `[7]`, payloads within capacity —
the first create succeeds, the second returns AccountAlreadyInitialized. -/
theorem c5_create_twice_witness :
    ∃ c0, student_intro [7] ⟨[], []⟩ (createAccounts [7] [1]) [65] [66] = .ok c0 ∧
      student_intro [7] c0 (createAccounts [7] [1]) [67] [68]
        = .err .AccountAlreadyInitialized :=
  c5_create_twice [7] [1] [65] [66] [67] [68] (by decide) (by decide)

/-- C7: an update-introduction whose introduction-slot reference does not
equal derive(caller identity, "intro") fails with error kind InvalidPDA
(ProgramError::Custom 1), for every payload, valid or invalid, provided the
checks that precede the address comparison pass (program ownership of the
slot, the writer's signature, and deserialization of the slot's data). -/
theorem c7_update_wrong_pda (pid : Bytes) (c : Chain) (writer pintro : AccountMeta)
    (rest : List AccountMeta) (name message : Bytes) (old : StudentIntroState)
    (hown : c.ownerOf pintro.key = pid) (hsig : writer.is_signer = true)
    (hparse : deserializeIntro (c.dataOf pintro.key) = some old)
    (hpda : pintro.key ≠ introAddr pid writer.key) :
    update_intro pid c (writer :: pintro :: rest) name message
      = .err IntroError.InvalidPDA.toProgramError := by
  simp [update_intro, hown, hsig, hparse, introAddr_def, Ne.symm hpda,
    IntroError.toProgramError]

/-- C7 witness: the introduction record sits at the underived address `[9]`;
updating through it fails with InvalidPDA whatever the payload. -/
theorem c7_update_wrong_pda_witness :
    update_intro [7] wrongSlotChain [⟨[1], true⟩, ⟨[9], false⟩] [70] [71]
      = .err IntroError.InvalidPDA.toProgramError :=
  c7_update_wrong_pda [7] wrongSlotChain ⟨[1], true⟩ ⟨[9], false⟩ [] [70] [71]
    sampleIntroRecord (by decide) (by decide) (by decide) (by decide)

/-- C8: every successful update-introduction overwrites only the stored
message field of the introduction record — the discriminator, initialized
flag, owner identity and name are unchanged, every other storage slot
(in particular the writer's derived reply-counter slot) is unchanged, and no
reward-token balance changes. -/
theorem c8_update_frame (pid : Bytes) (c : Chain) (writer pintro : AccountMeta)
    (rest : List AccountMeta) (name message : Bytes) (c' : Chain)
    (h : update_intro pid c (writer :: pintro :: rest) name message = .ok c') :
    ∃ old new, deserializeIntro (c.dataOf pintro.key) = some old ∧
      deserializeIntro (c'.dataOf pintro.key) = some new ∧
      new.message = message ∧
      new.name = old.name ∧
      new.writer = old.writer ∧
      new.discriminator = old.discriminator ∧
      new.is_initialized = old.is_initialized ∧
      (∀ q, q ≠ pintro.key → c'.getAccount q = c.getAccount q) ∧
      c'.getAccount (counterAddr pid writer.key)
        = c.getAccount (counterAddr pid writer.key) ∧
      (∀ q, c'.bal q = c.bal q) := by
  obtain ⟨old, hold, hkey, _, _, _, hc⟩ :=
    update_intro_ok_shape pid c writer pintro rest name message c' h
  subst hc
  refine ⟨old, { old with message := message }, hold, ?_, rfl, rfl, rfl, rfl, rfl,
    ?_, ?_, ?_⟩
  · simp [Chain.writeData, dataOf_set_same, deserializeIntro]
  · intro q hq
    simp [Chain.writeData, getAccount_set_ne _ _ _ _ (Ne.symm hq)]
  · rw [hkey]
    have hne : introAddr pid writer.key ≠ counterAddr pid writer.key :=
      Ne.symm (counterAddr_ne_introAddr pid writer.key)
    simp [Chain.writeData, getAccount_set_ne _ _ _ _ hne]
  · intro q
    simp [Chain.writeData, bal_set_account]

/-- C8 witness: updating the sample record's message to `[72]` leaves every
other field, slot and balance unchanged. -/
theorem c8_update_frame_witness :
    ∃ old new,
      deserializeIntro (goodIntroChain.dataOf
        (AccountMeta.mk (introAddr [7] [1]) false).key) = some old ∧
      deserializeIntro ((goodIntroChain.writeData (introAddr [7] [1])
        (.introData ⟨introBytes, true, [1], [65], [72]⟩)).dataOf
        (AccountMeta.mk (introAddr [7] [1]) false).key) = some new ∧
      new.message = [72] ∧
      new.name = old.name ∧
      new.writer = old.writer ∧
      new.discriminator = old.discriminator ∧
      new.is_initialized = old.is_initialized ∧
      (∀ q, q ≠ (AccountMeta.mk (introAddr [7] [1]) false).key →
        (goodIntroChain.writeData (introAddr [7] [1])
          (.introData ⟨introBytes, true, [1], [65], [72]⟩)).getAccount q
          = goodIntroChain.getAccount q) ∧
      (goodIntroChain.writeData (introAddr [7] [1])
          (.introData ⟨introBytes, true, [1], [65], [72]⟩)).getAccount
          (counterAddr [7] (AccountMeta.mk [1] true).key)
        = goodIntroChain.getAccount (counterAddr [7] (AccountMeta.mk [1] true).key) ∧
      (∀ q, (goodIntroChain.writeData (introAddr [7] [1])
          (.introData ⟨introBytes, true, [1], [65], [72]⟩)).bal q
        = goodIntroChain.bal q) :=
  c8_update_frame [7] goodIntroChain ⟨[1], true⟩ ⟨introAddr [7] [1], false⟩ []
    [70] [72] _ (by decide)

/-- C10 counterexample: update of a stored 1-byte-name record with supplied
name [] and a 950-byte message satisfies the claimed formula exactly at 1000,
yet the update fails — re-serialization keeps the stored name, needs 1001
bytes, and overflows the 1000-byte slot (the `serialize(...)?` of
processor.rs:241 fails with a Borsh write error). -/
theorem c10_update_size_counterexample :
    (4 + 5) + 1 + 32 + (4 + ([] : Bytes).length)
      + (4 + (List.replicate 950 66 : Bytes).length) ≤ 1000 ∧
    update_intro [7] goodIntroChain [⟨[1], true⟩, ⟨introAddr [7] [1], false⟩]
      [] (List.replicate 950 66) = .err .BorshIoError := by
  have h950 : (List.replicate 950 66 : Bytes).length = 950 :=
    List.length_replicate 950 66
  constructor
  · simp only [h950, List.length_nil]
    decide
  · generalize hM : (List.replicate 950 66 : Bytes) = M
    have h950b : M.length = 950 := by
      rw [← hM]
      exact List.length_replicate 950 66
    have hgt : ¬ (StudentIntroState.get_account_size [] M > 1000) := by
      rw [StudentIntroState.get_account_size, h950b]
      decide
    have hlen : introBytes.length = 5 := rfl
    simp [update_intro, Chain.ownerOf, Chain.dataOf, Chain.sizeOf, Chain.getAccount,
      goodIntroChain, lookupA, deserializeIntro, sampleIntroRecord, introAddr_def,
      hgt, StudentIntroState.serializedSize, hlen, h950b]

/-- C10 (amended): the capacity check of update-introduction is computed from
the supplied name even though that name is never stored, and with every other
precondition holding the update succeeds exactly when (4 + 5) + 1 + 32
+ (4 + len name) + (4 + len message) ≤ 1000 AND the re-serialized record (its
stored discriminator and name with the new message) fits the slot's byte
length; a formula value above 1000 is rejected with InvalidDataLength — so a
message that fits is rejected solely because of a long ignored name — and a
formula value within 1000 whose re-serialization overflows the slot is
rejected with a Borsh write error. -/
theorem c10_update_size_formula (pid : Bytes) (c : Chain) (writer pintro : AccountMeta)
    (rest : List AccountMeta) (name message : Bytes) (old : StudentIntroState)
    (hown : c.ownerOf pintro.key = pid) (hsig : writer.is_signer = true)
    (hparse : deserializeIntro (c.dataOf pintro.key) = some old)
    (hpda : pintro.key = introAddr pid writer.key)
    (hinit : old.is_initialized = true) :
    (isOk (update_intro pid c (writer :: pintro :: rest) name message) = true ↔
      ((4 + 5) + 1 + 32 + (4 + name.length) + (4 + message.length) ≤ 1000 ∧
        StudentIntroState.serializedSize { old with message := message }
          ≤ c.sizeOf pintro.key)) ∧
    (∀ nm ms : Bytes, (4 + 5) + 1 + 32 + (4 + nm.length) + (4 + ms.length) > 1000 →
      update_intro pid c (writer :: pintro :: rest) nm ms
        = .err IntroError.InvalidDataLength.toProgramError) ∧
    (∀ nm ms : Bytes, (4 + 5) + 1 + 32 + (4 + nm.length) + (4 + ms.length) ≤ 1000 →
      c.sizeOf pintro.key
          < StudentIntroState.serializedSize { old with message := ms } →
      update_intro pid c (writer :: pintro :: rest) nm ms = .err .BorshIoError) := by
  have hsz : ∀ nm ms : Bytes, StudentIntroState.get_account_size nm ms
      = (4 + 5) + 1 + 32 + (4 + nm.length) + (4 + ms.length) := by
    intro nm ms
    simp [StudentIntroState.get_account_size, StudentIntroState.DISCRIMINATOR, introBytes]
  rw [hpda] at hown hparse
  refine ⟨⟨?_, ?_⟩, ?_, ?_⟩
  · intro hok
    cases hres : update_intro pid c (writer :: pintro :: rest) name message with
    | ok c' =>
      obtain ⟨old2, hold2, _, _, hsize, hfit, _⟩ :=
        update_intro_ok_shape pid c writer pintro rest name message c' hres
      rw [hpda, hparse, Option.some.injEq] at hold2
      subst hold2
      rw [hsz] at hsize
      exact ⟨by omega, hfit⟩
    | err e => rw [hres] at hok; simp [isOk] at hok
    | panicked => rw [hres] at hok; simp [isOk] at hok
  · rintro ⟨hle, hfit⟩
    rw [hpda] at hfit
    simp only [StudentIntroState.serializedSize] at hfit
    have hgt : ¬ (StudentIntroState.get_account_size name message > 1000) := by
      rw [hsz]; omega
    have hnfit : ¬ (c.sizeOf (introAddr pid writer.key)
        < (4 + old.discriminator.length) + 1 + 32 + (4 + old.name.length)
          + (4 + message.length)) := by
      omega
    simp [update_intro, hown, hsig, hparse, hpda, introAddr_def, hinit, hgt,
      StudentIntroState.serializedSize, hnfit, isOk]
  · intro nm ms hbig
    have hgt : StudentIntroState.get_account_size nm ms > 1000 := by
      rw [hsz]; omega
    simp [update_intro, hown, hsig, hparse, hpda, introAddr_def, hinit, hgt,
      IntroError.toProgramError]
  · intro nm ms hle hbig
    rw [hpda] at hbig
    simp only [StudentIntroState.serializedSize] at hbig
    have hgt : ¬ (StudentIntroState.get_account_size nm ms > 1000) := by
      rw [hsz]; omega
    have hbig2 : c.sizeOf (introAddr pid writer.key)
        < (4 + old.discriminator.length) + 1 + 32 + (4 + old.name.length)
          + (4 + ms.length) := by
      omega
    simp [update_intro, hown, hsig, hparse, hpda, introAddr_def, hinit, hgt,
      StudentIntroState.serializedSize, hbig2]

/-- C10 witness: the stored sample record at its derived slot — the size
formula plus the serialize-fit condition decide success, a formula value
above 1000 forces InvalidDataLength (the long ignored name alone), and a
serialize overflow forces the Borsh write error. -/
theorem c10_update_size_formula_witness :
    (isOk (update_intro [7] goodIntroChain
        [⟨[1], true⟩, ⟨introAddr [7] [1], false⟩] [70] [71]) = true ↔
      ((4 + 5) + 1 + 32 + (4 + ([70] : Bytes).length)
        + (4 + ([71] : Bytes).length) ≤ 1000 ∧
       StudentIntroState.serializedSize { sampleIntroRecord with message := [71] }
         ≤ goodIntroChain.sizeOf (AccountMeta.mk (introAddr [7] [1]) false).key)) ∧
    (∀ nm ms : Bytes, (4 + 5) + 1 + 32 + (4 + nm.length) + (4 + ms.length) > 1000 →
      update_intro [7] goodIntroChain [⟨[1], true⟩, ⟨introAddr [7] [1], false⟩] nm ms
        = .err IntroError.InvalidDataLength.toProgramError) ∧
    (∀ nm ms : Bytes, (4 + 5) + 1 + 32 + (4 + nm.length) + (4 + ms.length) ≤ 1000 →
      goodIntroChain.sizeOf (AccountMeta.mk (introAddr [7] [1]) false).key
          < StudentIntroState.serializedSize { sampleIntroRecord with message := ms } →
      update_intro [7] goodIntroChain [⟨[1], true⟩, ⟨introAddr [7] [1], false⟩] nm ms
        = .err .BorshIoError) :=
  c10_update_size_formula [7] goodIntroChain ⟨[1], true⟩ ⟨introAddr [7] [1], false⟩ []
    [70] [71] sampleIntroRecord (by decide) (by decide) (by decide) (by decide) (by decide)

/-- C2 (code bug): create and update reject a missing signature of the
claimed actor with MissingRequiredSignature, but the reply handler never
examines the replier's signer flag: a reply whose replier did not sign, all
other preconditions holding, succeeds and mutates state instead of failing
with a missing-signature error. -/
theorem c2_reply_signer_gap :
    student_intro [7] ⟨[], []⟩ (nosigCreateAccounts [7] [1]) [65] [66]
      = .err .MissingRequiredSignature ∧
    PResult.bind (chainAfter [7] [1] [2] [65] [66] [67] [68] 0)
        (fun c0 => update_intro [7] c0 (nosigUpdateAccounts [7] [1]) [67] [68])
      = .err .MissingRequiredSignature ∧
    isOk (PResult.bind (chainAfter [7] [1] [2] [65] [66] [67] [68] 0)
        (fun c0 => reply_intro [7] c0 (nosigReplyAccounts [7] [1] [2] 0) [67] [68]))
      = true := by
  refine ⟨by decide, by decide, by decide⟩

/-- C6: across any sequence of operations, every successful
create-introduction adds exactly 10 * LAMPORTS_PER_SOL base units (10 whole
reward units at the mint's 9 decimals) to the creating identity's associated
token account and changes no other balance; every successful reply adds
exactly 5 * LAMPORTS_PER_SOL base units (5 units) to the replier's associated
token account and changes no other balance; update-introduction never changes
any balance. -/
theorem c6_reward_amounts :
    (∀ (pid : Bytes) (c : Chain) (writer ip cp tm ma ua sp tp : AccountMeta)
       (rest : List AccountMeta) (name message : Bytes) (c' : Chain),
      student_intro pid c (writer :: ip :: cp :: tm :: ma :: ua :: sp :: tp :: rest)
          name message = .ok c' →
      ua.key = ataOf pid writer.key ∧
      c'.bal ua.key = c.bal ua.key + 10 * LAMPORTS_PER_SOL ∧
      (∀ q, q ≠ ua.key → c'.bal q = c.bal q)) ∧
    (∀ (pid : Bytes) (c : Chain) (replier ip cp pr tm ma ua sp tp : AccountMeta)
       (rest : List AccountMeta) (name message : Bytes) (c' : Chain),
      reply_intro pid c (replier :: ip :: cp :: pr :: tm :: ma :: ua :: sp :: tp :: rest)
          name message = .ok c' →
      ua.key = ataOf pid replier.key ∧
      c'.bal ua.key = c.bal ua.key + 5 * LAMPORTS_PER_SOL ∧
      (∀ q, q ≠ ua.key → c'.bal q = c.bal q)) ∧
    (∀ (pid : Bytes) (c : Chain) (writer pintro : AccountMeta)
       (rest : List AccountMeta) (name message : Bytes) (c' : Chain),
      update_intro pid c (writer :: pintro :: rest) name message = .ok c' →
      ∀ q, c'.bal q = c.bal q) ∧
    reward_units (10 * LAMPORTS_PER_SOL) = 10 ∧
    reward_units (5 * LAMPORTS_PER_SOL) = 5 ∧
    balOfResult (student_intro [7] ⟨[], []⟩ (createAccounts [7] [1]) [65] [66])
      (ataOf [7] [1]) = some (10 * LAMPORTS_PER_SOL) ∧
    balOfResult (chainAfter [7] [1] [2] [65] [66] [67] [68] 1) (ataOf [7] [2])
      = some (5 * LAMPORTS_PER_SOL) := by
  refine ⟨?_, ?_, ?_, by decide, by decide, by decide, by decide⟩
  · intro pid c writer ip cp tm ma ua sp tp rest name message c' h
    obtain ⟨_, _, _, _, huak, _, _, hc⟩ :=
      student_intro_ok_shape pid c writer ip cp tm ma ua sp tp rest name message c' h
    subst hc
    refine ⟨huak, ?_, ?_⟩
    · simp [Chain.writeData, bal_mint_to_same, bal_set_account]
    · intro q hq
      simp [Chain.writeData, bal_mint_to_ne _ _ _ _ (Ne.symm hq), bal_set_account]
  · intro pid c replier ip cp pr tm ma ua sp tp rest name message c' h
    obtain ⟨cd, _, _, huak, _, _, hc⟩ :=
      reply_intro_ok_shape pid c replier ip cp pr tm ma ua sp tp rest name message c' h
    subst hc
    refine ⟨huak, ?_, ?_⟩
    · simp [Chain.writeData, bal_mint_to_same, bal_set_account]
    · intro q hq
      simp [Chain.writeData, bal_mint_to_ne _ _ _ _ (Ne.symm hq), bal_set_account]
  · intro pid c writer pintro rest name message c' h
    obtain ⟨old, _, _, _, _, _, hc⟩ :=
      update_intro_ok_shape pid c writer pintro rest name message c' h
    subst hc
    intro q
    simp [Chain.writeData, bal_set_account]

/-- C9 counterexample: the one-byte buffer `[0]` carries opcode 0 and an
empty remainder; the remainder does not decode as the payload schema, and
`unpack` panics (the `.unwrap()` of instruction.rs:24) instead of reporting a
typed error. -/
theorem c9_unpack_counterexample : unpack [0] = .panicked := by decide

/-- C9 (amended): an empty buffer is reported as the typed error
InvalidInstructionData; an unrecognized opcode whose remainder decodes is
reported as InvalidInstructionData; but a remainder that does not decode as
the payload schema panics (terminates abnormally) before the opcode is
examined.  In every non-success case `process_instruction` propagates the
outcome unchanged and no state is mutated. -/
theorem c9_unpack_errors :
    unpack [] = .err .InvalidInstructionData ∧
    (∀ (v : Nat) (rest : Bytes), payloadFromSlice rest = none →
      unpack (v :: rest) = .panicked) ∧
    (∀ (v : Nat) (rest nm ms : Bytes), payloadFromSlice rest = some (nm, ms) →
      v ≠ 0 → v ≠ 1 → v ≠ 2 → unpack (v :: rest) = .err .InvalidInstructionData) ∧
    (∀ (pid : Bytes) (c : Chain) (accts : List AccountMeta) (input : Bytes)
       (e : ProgramError), unpack input = .err e →
      process_instruction pid c accts input = .err e) ∧
    (∀ (pid : Bytes) (c : Chain) (accts : List AccountMeta) (input : Bytes),
      unpack input = .panicked →
      process_instruction pid c accts input = .panicked) := by
  refine ⟨rfl, ?_, ?_, ?_, ?_⟩
  · intro v rest hp
    simp [unpack, hp]
  · intro v rest nm ms hp h0 h1 h2
    simp [unpack, hp, h0, h1, h2]
  · intro pid c accts input e h
    simp [process_instruction, h]
  · intro pid c accts input h
    simp [process_instruction, h]

theorem dataOf_mint_to (c : Chain) (a q : Pubkey) (amt : Nat) :
    (c.mint_to a amt).dataOf q = c.dataOf q := rfl

/-- C1 counterexample: a create-introduction whose introduction-slot
reference `[9]` does not match the derived address is rejected with
InvalidArgument, not with the error kind InvalidPDA (Custom 1) the claim
states. -/
theorem c1_slot_validation_counterexample :
    student_intro [7] ⟨[], []⟩
      [⟨[1], true⟩, ⟨[9], false⟩, ⟨counterAddr [7] [1], false⟩, ⟨mintAddr [7], false⟩,
       ⟨authAddr [7], false⟩, ⟨ataOf [7] [1], false⟩, ⟨SYSTEM_PROGRAM_ID, false⟩,
       ⟨TOKEN_PROGRAM_ID, false⟩] [65] [66] = .err .InvalidArgument ∧
    ProgramError.InvalidArgument ≠ IntroError.InvalidPDA.toProgramError := by
  decide

/-- C1 (amended): update re-derives the introduction slot and reply
re-derives the reply slot, rejecting mismatches with InvalidPDA before any
mutation; but create rejects introduction-slot and counter-slot mismatches
with InvalidArgument (not InvalidPDA), create rejects a mint-authority
singleton mismatch with InvalidPDA (not IncorrectAccountError), and reply
never re-derives the supplied introduction or counter slot addresses: a reply
through an underived counter slot and an underived introduction reference
succeeds. -/
theorem c1_slot_validation :
    (∀ (pid : Bytes) (c : Chain) (writer ip cp tm ma ua sp tp : AccountMeta)
       (rest : List AccountMeta) (name message : Bytes),
      writer.is_signer = true → ip.key ≠ introAddr pid writer.key →
      student_intro pid c (writer :: ip :: cp :: tm :: ma :: ua :: sp :: tp :: rest)
        name message = .err .InvalidArgument) ∧
    (∀ (pid : Bytes) (c : Chain) (writer ip cp tm ma ua sp tp : AccountMeta)
       (rest : List AccountMeta) (name message : Bytes),
      writer.is_signer = true → ip.key = introAddr pid writer.key →
      cp.key ≠ counterAddr pid writer.key →
      student_intro pid c (writer :: ip :: cp :: tm :: ma :: ua :: sp :: tp :: rest)
        name message = .err .InvalidArgument) ∧
    (∀ (pid : Bytes) (c : Chain) (writer ip cp tm ma ua sp tp : AccountMeta)
       (rest : List AccountMeta) (name message : Bytes),
      writer.is_signer = true → ip.key = introAddr pid writer.key →
      cp.key = counterAddr pid writer.key → tm.key = mintAddr pid →
      ma.key ≠ authAddr pid →
      student_intro pid c (writer :: ip :: cp :: tm :: ma :: ua :: sp :: tp :: rest)
        name message = .err IntroError.InvalidPDA.toProgramError) ∧
    (∀ (pid : Bytes) (c : Chain) (writer pintro : AccountMeta)
       (rest : List AccountMeta) (name message : Bytes) (old : StudentIntroState),
      c.ownerOf pintro.key = pid → writer.is_signer = true →
      deserializeIntro (c.dataOf pintro.key) = some old →
      pintro.key ≠ introAddr pid writer.key →
      update_intro pid c (writer :: pintro :: rest) name message
        = .err IntroError.InvalidPDA.toProgramError) ∧
    (∀ (pid : Bytes) (c : Chain) (replier ip cp pr tm ma ua sp tp : AccountMeta)
       (rest : List AccountMeta) (name message : Bytes) (cd : ReplyCount),
      tm.key = mintAddr pid → ma.key = authAddr pid →
      ua.key = get_associated_token_address replier.key tm.key →
      tp.key = TOKEN_PROGRAM_ID →
      deserializeCounter (c.dataOf cp.key) = some cd →
      pr.key ≠ (find_program_address [ip.key, u64_to_be_bytes cd.counter] pid).1 →
      reply_intro pid c (replier :: ip :: cp :: pr :: tm :: ma :: ua :: sp :: tp :: rest)
        name message = .err IntroError.InvalidPDA.toProgramError) ∧
    isOk (reply_intro [7] rogueChain rogueReplyAccounts [40] [41]) = true := by
  refine ⟨?_, ?_, ?_, ?_, ?_, by decide⟩
  · intro pid c writer ip cp tm ma ua sp tp rest name message hsig hip
    simp [student_intro, hsig, introAddr_def, Ne.symm hip]
  · intro pid c writer ip cp tm ma ua sp tp rest name message hsig hip hcp
    simp [student_intro, hsig, hip, introAddr_def, counterAddr_def, Ne.symm hcp]
  · intro pid c writer ip cp tm ma ua sp tp rest name message hsig hip hcp htm hma
    simp [student_intro, hsig, hip, hcp, htm, introAddr_def, counterAddr_def,
      mintAddr_def, authAddr_def, Ne.symm hma, IntroError.toProgramError]
  · intro pid c writer pintro rest name message old hown hsig hparse hpda
    simp [update_intro, hown, hsig, hparse, introAddr_def, Ne.symm hpda,
      IntroError.toProgramError]
  · intro pid c replier ip cp pr tm ma ua sp tp rest name message cd
      htm hma hua htp hcd hpr
    simp [reply_intro, htm, hma, hua, htp, hcd, mintAddr_def, authAddr_def,
      Ne.symm hpr, IntroError.toProgramError]

/-- C3 counterexample: over the canonical scenario all 2^64 replies succeed
(each targets a fresh derived address), yet after 2^64 successful replies the
u64 counter has wrapped to 0 ≠ 2^64, so "after k successful replies the
counter equals k" fails at k = 2^64. -/
theorem c3_reply_counter_counterexample :
    counterOfResult (chainAfter [7] [1] [2] [65] [66] [67] [68] U64MOD)
      (counterAddr [7] [1]) = some 0 ∧ U64MOD ≠ 0 := by
  obtain ⟨ck, heq, inv⟩ :=
    chainAfter_inv [7] [1] [2] [65] [66] [67] [68] (by decide) U64MOD le_rfl
  refine ⟨?_, by decide⟩
  rw [heq]
  simp [counterOfResult, Chain.dataOf, inv.counterOk, deserializeCounter,
    Nat.mod_self]

/-- C3 (amended): the counter slot is created holding 0; each successful
reply targets exactly derive(supplied introduction address, big-endian bytes
of the stored counter) and increments the stored counter by exactly 1 modulo
2^64; and in the canonical scenario, after k ≤ 2^64 successful replies the
counter equals k % 2^64 (hence k for every k < 2^64) and the j-th reply
record (j < k) sits at derive(introduction address, be_bytes(j)). -/
theorem c3_reply_counter_law :
    (∀ (pid : Bytes) (c : Chain) (writer ip cp tm ma ua sp tp : AccountMeta)
       (rest : List AccountMeta) (name message : Bytes) (c' : Chain),
      student_intro pid c (writer :: ip :: cp :: tm :: ma :: ua :: sp :: tp :: rest)
          name message = .ok c' →
      deserializeCounter (c'.dataOf cp.key) = some ⟨counterBytes, true, 0⟩) ∧
    (∀ (pid : Bytes) (c : Chain) (replier ip cp pr tm ma ua sp tp : AccountMeta)
       (rest : List AccountMeta) (name message : Bytes) (c' : Chain),
      reply_intro pid c (replier :: ip :: cp :: pr :: tm :: ma :: ua :: sp :: tp :: rest)
          name message = .ok c' →
      ∃ cd, deserializeCounter (c.dataOf cp.key) = some cd ∧
        pr.key = (find_program_address [ip.key, u64_to_be_bytes cd.counter] pid).1 ∧
        deserializeCounter (c'.dataOf cp.key)
          = some { cd with counter := (cd.counter + 1) % U64MOD }) ∧
    (∀ (pid w r nameA msgA nameB msgB : Bytes) (k : Nat),
      StudentIntroState.get_account_size nameA msgA ≤ 1000 → k ≤ U64MOD →
      ∃ ck, chainAfter pid w r nameA msgA nameB msgB k = .ok ck ∧
        deserializeCounter (ck.dataOf (counterAddr pid w))
          = some ⟨counterBytes, true, k % U64MOD⟩ ∧
        (∀ j, j < k → ck.getAccount (replyAddr pid w j)
          = some ⟨pid, .replyData (replyRecord pid w r nameB msgB),
            StudentReplyState.get_account_size nameB msgB⟩)) ∧
    counterOfResult (chainAfter [7] [1] [2] [65] [66] [67] [68] 2)
      (counterAddr [7] [1]) = some 2 := by
  refine ⟨?_, ?_, ?_, by decide⟩
  · intro pid c writer ip cp tm ma ua sp tp rest name message c' h
    obtain ⟨_, _, _, _, _, _, _, hc⟩ :=
      student_intro_ok_shape pid c writer ip cp tm ma ua sp tp rest name message c' h
    subst hc
    simp [dataOf_mint_to, Chain.writeData, dataOf_set_same, deserializeCounter]
  · intro pid c replier ip cp pr tm ma ua sp tp rest name message c' h
    obtain ⟨cd, hcd, _, _, hprk, _, hc⟩ :=
      reply_intro_ok_shape pid c replier ip cp pr tm ma ua sp tp rest name message c' h
    subst hc
    refine ⟨cd, hcd, hprk, ?_⟩
    simp [dataOf_mint_to, Chain.writeData, dataOf_set_same, deserializeCounter]
  · intro pid w r nameA msgA nameB msgB k hsize hk
    obtain ⟨ck, heq, inv⟩ := chainAfter_inv pid w r nameA msgA nameB msgB hsize k hk
    refine ⟨ck, heq, ?_, ?_⟩
    · simp [Chain.dataOf, inv.counterOk, deserializeCounter]
    · intro j hj
      exact inv.replyOld j (by omega) hj

theorem reply_ok_of_preconds (pid : Bytes) (c : Chain)
    (replier ip cp pr tm ma ua sp tp : AccountMeta) (rest : List AccountMeta)
    (name message : Bytes) (cd : ReplyCount)
    (htm : tm.key = mintAddr pid) (hma : ma.key = authAddr pid)
    (hua : ua.key = get_associated_token_address replier.key tm.key)
    (htp : tp.key = TOKEN_PROGRAM_ID)
    (hcd : deserializeCounter (c.dataOf cp.key) = some cd)
    (hpr : pr.key = (find_program_address [ip.key, u64_to_be_bytes cd.counter] pid).1)
    (hfresh : c.getAccount pr.key = none) :
    isOk (reply_intro pid c
      (replier :: ip :: cp :: pr :: tm :: ma :: ua :: sp :: tp :: rest)
      name message) = true := by
  rw [hpr] at hfresh
  have h77 := reply_size_ge name message
  simp [reply_intro, htm, hma, hua, htp, hcd, hpr, mintAddr_def, authAddr_def,
    create_account, hfresh, dataOf_set_same, deserializeReply, h77, isOk]

/-- C4 counterexample: a reply whose encoded name+message size is 1082 bytes
(beyond the 1000-byte capacity the claim states) is not rejected — it
succeeds, because the reply handler performs no capacity check at all. -/
theorem c4_capacity_counterexample :
    StudentReplyState.get_account_size (List.replicate 500 65) (List.replicate 500 66)
      > 1000 ∧
    isOk (PResult.bind (chainAfter [7] [1] [2] [65] [66] [67] [68] 0)
      (fun c0 => reply_intro [7] c0 (replyAccounts [7] [1] [2] 0)
        (List.replicate 500 65) (List.replicate 500 66))) = true := by
  constructor
  · rw [StudentReplyState.get_account_size, List.length_replicate, List.length_replicate]
    decide
  · obtain ⟨c0, heq, inv⟩ :=
      chainAfter_zero_inv [7] [1] [2] [65] [66] [67] [68] (by decide)
    rw [heq]
    simp only [PResult.bind]
    exact reply_ok_of_preconds [7] c0 ⟨[2], true⟩ ⟨introAddr [7] [1], false⟩
      ⟨counterAddr [7] [1], false⟩ ⟨replyAddr [7] [1] 0, false⟩ ⟨mintAddr [7], false⟩
      ⟨authAddr [7], false⟩ ⟨ataOf [7] [2], false⟩ ⟨SYSTEM_PROGRAM_ID, false⟩
      ⟨TOKEN_PROGRAM_ID, false⟩ [] (List.replicate 500 65) (List.replicate 500 66)
      ⟨counterBytes, true, 0⟩ rfl rfl rfl rfl
      (by simp [Chain.dataOf, inv.counterOk, deserializeCounter])
      rfl (inv.replyFresh 0 (by decide) (by omega))

/-- C4 (amended): create and update reject an encoded name+message size above
1000 bytes with InvalidDataLength before any allocation or write, and accept
a size of exactly 1000 when every other precondition holds; the reply handler
performs no capacity check — it allocates exactly the encoded size and
succeeds for payloads of any size when its other preconditions hold. -/
theorem c4_capacity_check :
    (∀ (pid : Bytes) (c : Chain) (writer ip cp tm ma ua sp tp : AccountMeta)
       (rest : List AccountMeta) (name message : Bytes),
      writer.is_signer = true → ip.key = introAddr pid writer.key →
      cp.key = counterAddr pid writer.key → tm.key = mintAddr pid →
      ma.key = authAddr pid → ua.key = ataOf pid writer.key →
      tp.key = TOKEN_PROGRAM_ID →
      StudentIntroState.get_account_size name message > 1000 →
      student_intro pid c (writer :: ip :: cp :: tm :: ma :: ua :: sp :: tp :: rest)
        name message = .err IntroError.InvalidDataLength.toProgramError) ∧
    (∀ (pid w name message : Bytes) (c : Chain),
      StudentIntroState.get_account_size name message = 1000 →
      c.getAccount (introAddr pid w) = none →
      c.getAccount (counterAddr pid w) = none →
      isOk (student_intro pid c (createAccounts pid w) name message) = true) ∧
    (∀ (pid : Bytes) (c : Chain) (writer pintro : AccountMeta)
       (rest : List AccountMeta) (name message : Bytes) (old : StudentIntroState),
      c.ownerOf pintro.key = pid → writer.is_signer = true →
      deserializeIntro (c.dataOf pintro.key) = some old →
      pintro.key = introAddr pid writer.key → old.is_initialized = true →
      StudentIntroState.get_account_size name message > 1000 →
      update_intro pid c (writer :: pintro :: rest) name message
        = .err IntroError.InvalidDataLength.toProgramError) ∧
    (∀ (pid : Bytes) (c : Chain) (writer pintro : AccountMeta)
       (rest : List AccountMeta) (name message : Bytes) (old : StudentIntroState),
      c.ownerOf pintro.key = pid → writer.is_signer = true →
      deserializeIntro (c.dataOf pintro.key) = some old →
      pintro.key = introAddr pid writer.key → old.is_initialized = true →
      StudentIntroState.get_account_size name message = 1000 →
      StudentIntroState.serializedSize { old with message := message }
        ≤ c.sizeOf pintro.key →
      isOk (update_intro pid c (writer :: pintro :: rest) name message) = true) ∧
    (∀ (pid : Bytes) (c : Chain) (replier ip cp pr tm ma ua sp tp : AccountMeta)
       (rest : List AccountMeta) (name message : Bytes) (cd : ReplyCount),
      tm.key = mintAddr pid → ma.key = authAddr pid →
      ua.key = get_associated_token_address replier.key tm.key →
      tp.key = TOKEN_PROGRAM_ID →
      deserializeCounter (c.dataOf cp.key) = some cd →
      pr.key = (find_program_address [ip.key, u64_to_be_bytes cd.counter] pid).1 →
      c.getAccount pr.key = none →
      isOk (reply_intro pid c (replier :: ip :: cp :: pr :: tm :: ma :: ua :: sp :: tp :: rest)
        name message) = true) := by
  refine ⟨?_, ?_, ?_, ?_, ?_⟩
  · intro pid c writer ip cp tm ma ua sp tp rest name message
      hsig hip hcp htm hma hua htp hbig
    simp [student_intro, hsig, hip, hcp, htm, hma, hua, htp, introAddr_def,
      counterAddr_def, mintAddr_def, authAddr_def, ataOf_def, hbig,
      IntroError.toProgramError]
  · intro pid w name message c hsize hf1 hf2
    obtain ⟨c0, heq, _⟩ :=
      student_intro_canonical_ok pid w name message c (le_of_eq hsize) hf1 hf2
    simp [heq, isOk]
  · intro pid c writer pintro rest name message old hown hsig hparse hpda hinit hbig
    rw [hpda] at hown hparse
    simp [update_intro, hown, hsig, hparse, hpda, introAddr_def, hinit, hbig,
      IntroError.toProgramError]
  · intro pid c writer pintro rest name message old hown hsig hparse hpda hinit
      hsize hfit
    rw [hpda] at hown hparse hfit
    simp only [StudentIntroState.serializedSize] at hfit
    have hgt : ¬ (StudentIntroState.get_account_size name message > 1000) := by omega
    have hnfit : ¬ (c.sizeOf (introAddr pid writer.key)
        < (4 + old.discriminator.length) + 1 + 32 + (4 + old.name.length)
          + (4 + message.length)) := by
      omega
    simp [update_intro, hown, hsig, hparse, hpda, introAddr_def, hinit, hgt,
      StudentIntroState.serializedSize, hnfit, isOk]
  · intro pid c replier ip cp pr tm ma ua sp tp rest name message cd
      htm hma hua htp hcd hpr hfresh
    exact reply_ok_of_preconds pid c replier ip cp pr tm ma ua sp tp rest
      name message cd htm hma hua htp hcd hpr hfresh

end StudentIntroSol
